import Mathlib

/-!
Verification development for the MARIAM CSV/Excel menu-import pipeline
(`server/app/routes/csv_import.py`, `server/app/models/import_session.py`,
`server/app/models/audit_log.py`).

The Python source is shallowly embedded: strings are Lean `String`s,
calendar dates are proleptic-Gregorian ordinals (`Nat`, with
`toOrdinal 1 1 1 = 1`, exactly Python's `date.toordinal`), Python `dict`s
are association lists with insertion-order semantics, and the database
session is explicit state passing.  `datetime.strptime` is embedded for
the date-shaped formats the importer works with (the six formats of
`detect_date_format` — the only formats the program itself produces).
-/

namespace Mariam

/-! ## Python string primitives -/

/-- Characters stripped by Python's `str.strip()` (the ASCII whitespace set). -/
def pyIsSpace (c : Char) : Bool :=
  c = ' ' ∨ c = '\t' ∨ c = '\n' ∨ c = '\r' ∨ c = '\x0b' ∨ c = '\x0c'

/-- Python `str.strip()` on a character list. -/
def pyStripChars (cs : List Char) : List Char :=
  ((cs.dropWhile pyIsSpace).reverse.dropWhile pyIsSpace).reverse

/-- Python `str.strip()`. -/
def pyStrip (s : String) : String :=
  String.mk (pyStripChars s.data)

/-- Python `str.lower()`, restricted to ASCII case folding (the importer's
substring patterns are already lower case; the accented letters occurring in
them are unaffected by case folding of the inputs the claims concern). -/
def pyLower (s : String) : String :=
  String.mk (s.data.map Char.toLower)

/-- Python substring test `pat in hay` on character lists
(`"" in s` is `True`, as in Python). -/
def containsSub : List Char → List Char → Bool
  | [], pat => pat.isEmpty
  | c :: t, pat => pat.isPrefixOf (c :: t) || containsSub t pat

/-- Python substring test `pat in hay` on strings. -/
def strContains (hay pat : String) : Bool :=
  containsSub hay.data pat.data

/-- Python `str.count(c)` for a single-character needle. -/
def countChar (s : String) (c : Char) : Nat :=
  s.data.count c

/-! ## Proleptic Gregorian calendar (Python `datetime.date`) -/

/-- Gregorian leap year. -/
def isLeap (y : Nat) : Bool :=
  y % 4 = 0 ∧ (y % 100 ≠ 0 ∨ y % 400 = 0)

/-- Number of days in month `m` of year `y`. -/
def daysInMonth (y m : Nat) : Nat :=
  if m = 2 then (if isLeap y then 29 else 28)
  else if m = 4 ∨ m = 6 ∨ m = 9 ∨ m = 11 then 30
  else 31

/-- Days in all years strictly before year `y` (year 1 is the first year). -/
def daysBeforeYear (y : Nat) : Nat :=
  let n := y - 1
  365 * n + n / 4 - n / 100 + n / 400

/-- Days in all months of year `y` strictly before month `m`. -/
def daysBeforeMonth (y m : Nat) : Nat :=
  let base :=
    match m with
    | 1 => 0 | 2 => 31 | 3 => 59 | 4 => 90 | 5 => 120 | 6 => 151
    | 7 => 181 | 8 => 212 | 9 => 243 | 10 => 273 | 11 => 304 | _ => 334
  if 3 ≤ m ∧ isLeap y then base + 1 else base

/-- Python `date(y, m, d).toordinal()`: day 1 is 0001-01-01. -/
def toOrdinal (y m d : Nat) : Nat :=
  daysBeforeYear y + daysBeforeMonth y m + d

/-- Python `date.fromordinal(o).weekday()`: Monday = 0 … Sunday = 6
(0001-01-01, ordinal 1, is a Monday). -/
def weekday (o : Nat) : Nat :=
  (o + 6) % 7

/-! ## `datetime.strptime` for the importer's date formats -/

/-- One directive of a date format string. -/
inductive Tok where
  | y4 | mo | dy | lit (c : Char)
deriving Repr, DecidableEq

/-- The six format strings of `detect_date_format`, plus nothing else:
these are the only formats the program itself produces or consumes. -/
inductive Fmt where
  | ymdDash   -- '%Y-%m-%d'
  | dmySlash  -- '%d/%m/%Y'
  | dmyDash   -- '%d-%m-%Y'
  | dmyDot    -- '%d.%m.%Y'
  | mdySlash  -- '%m/%d/%Y'
  | ymdSlash  -- '%Y/%m/%d'
deriving Repr, DecidableEq

def Fmt.toks : Fmt → List Tok
  | .ymdDash => [.y4, .lit '-', .mo, .lit '-', .dy]
  | .dmySlash => [.dy, .lit '/', .mo, .lit '/', .y4]
  | .dmyDash => [.dy, .lit '-', .mo, .lit '-', .y4]
  | .dmyDot => [.dy, .lit '.', .mo, .lit '.', .y4]
  | .mdySlash => [.mo, .lit '/', .dy, .lit '/', .y4]
  | .ymdSlash => [.y4, .lit '/', .mo, .lit '/', .dy]

def digitVal (c : Char) : Nat := c.toNat - '0'.toNat

def isDigitChar (c : Char) : Bool := '0' ≤ c ∧ c ≤ '9'

/-- `%Y`: exactly four digits (CPython's `_strptime` regex `\d\d\d\d`). -/
def parseYear4 : List Char → Option (Nat × List Char)
  | a :: b :: c :: d :: rest =>
    if isDigitChar a ∧ isDigitChar b ∧ isDigitChar c ∧ isDigitChar d then
      some (digitVal a * 1000 + digitVal b * 100 + digitVal c * 10 + digitVal d, rest)
    else none
  | _ => none

/-- `%m`: CPython regex `1[0-2]|0[1-9]|[1-9]` (two digits preferred). -/
def parseMonth : List Char → Option (Nat × List Char)
  | c0 :: c1 :: rest =>
    if c0 = '1' ∧ '0' ≤ c1 ∧ c1 ≤ '2' then some (10 + digitVal c1, rest)
    else if c0 = '0' ∧ '1' ≤ c1 ∧ c1 ≤ '9' then some (digitVal c1, rest)
    else if '1' ≤ c0 ∧ c0 ≤ '9' then some (digitVal c0, c1 :: rest)
    else none
  | [c0] => if '1' ≤ c0 ∧ c0 ≤ '9' then some (digitVal c0, []) else none
  | [] => none

/-- `%d`: CPython regex `3[01]|[12]\d|0[1-9]|[1-9]` (two digits preferred). -/
def parseDay : List Char → Option (Nat × List Char)
  | c0 :: c1 :: rest =>
    if c0 = '3' ∧ '0' ≤ c1 ∧ c1 ≤ '1' then some (30 + digitVal c1, rest)
    else if ('1' ≤ c0 ∧ c0 ≤ '2') ∧ isDigitChar c1 then some (digitVal c0 * 10 + digitVal c1, rest)
    else if c0 = '0' ∧ '1' ≤ c1 ∧ c1 ≤ '9' then some (digitVal c1, rest)
    else if '1' ≤ c0 ∧ c0 ≤ '9' then some (digitVal c0, c1 :: rest)
    else none
  | [c0] => if '1' ≤ c0 ∧ c0 ≤ '9' then some (digitVal c0, []) else none
  | [] => none

/-- Run a token list against the input; the whole input must be consumed. -/
def runToks : List Tok → List Char → Nat → Nat → Nat → Option (Nat × Nat × Nat)
  | [], [], y, m, d => some (y, m, d)
  | [], _ :: _, _, _, _ => none
  | .y4 :: ts, cs, _, m, d =>
    match parseYear4 cs with
    | some (yv, rest) => runToks ts rest yv m d
    | none => none
  | .mo :: ts, cs, y, _, d =>
    match parseMonth cs with
    | some (mv, rest) => runToks ts rest y mv d
    | none => none
  | .dy :: ts, cs, y, m, _ =>
    match parseDay cs with
    | some (dv, rest) => runToks ts rest y m dv
    | none => none
  | .lit c :: ts, cs, y, m, d =>
    match cs with
    | c0 :: rest => if c0 = c then runToks ts rest y m d else none
    | [] => none

/-- `datetime.strptime(s, fmt).date()` as an ordinal; `none` models
`ValueError` (regex mismatch, year 0, or day out of range for the month). -/
def strptimeDate (f : Fmt) (s : String) : Option Nat :=
  match runToks f.toks s.data 0 0 0 with
  | some (y, m, d) =>
    if 1 ≤ y ∧ 1 ≤ d ∧ d ≤ daysInMonth y m then some (toOrdinal y m d) else none
  | none => none

/-- `detect_date_format`: the first of the six formats that parses the
stripped input. -/
def formatsList : List Fmt :=
  [.ymdDash, .dmySlash, .dmyDash, .dmyDot, .mdySlash, .ymdSlash]

def detect_date_format (s : String) : Option Fmt :=
  formatsList.find? (fun f => (strptimeDate f (pyStrip s)).isSome)

/-- `parse_date`: explicit format first, then auto-detection; `none` for a
blank or unparseable input. -/
def parse_date (s : String) (fmt : Option Fmt) : Option Nat :=
  if pyStrip s = "" then none
  else
    let t := pyStrip s
    let auto : Option Nat := (detect_date_format t).bind (fun f => strptimeDate f t)
    match fmt with
    | some f =>
      match strptimeDate f t with
      | some d => some d
      | none => auto
    | none => auto

/-! ## Tag detection (`detect_tags_from_text`) -/

def vegetarian_keywords : List String :=
  ["végétarien", "vegetarien", "vegan", "végan", "vg", "veggie", "sans viande",
   "🌱", "🥬", "🥗", "🥦"]

def halal_keywords : List String := ["halal", "🕌", "hl"]

def pork_free_keywords : List String :=
  ["sans porc", "sans-porc", "no pork", "sp", "volaille", "dinde", "poulet"]

def gluten_free_keywords : List String :=
  ["sans gluten", "gluten-free", "gluten free", "sg", "gf"]

def lactose_free_keywords : List String :=
  ["sans lactose", "lactose-free", "lactose free", "sl", "lf"]

def bio_keywords : List String :=
  ["bio", "biologique", "organic", "ab", "agriculture biologique", "🌿"]

def local_keywords : List String :=
  ["local", "locaux", "région", "régional", "circuit court", "fermier"]

def french_keywords : List String :=
  ["france", "français", "française", "viande française", "vf",
   "volaille française", "🇫🇷", "origine france"]

def containsAny (text : String) (kws : List String) : Bool :=
  kws.any (fun kw => strContains text kw)

structure TagResult where
  tags : List String
  certifications : List String
deriving Repr, DecidableEq

/-- `detect_tags_from_text`.  Each keyword family contributes its tag at most
once (the Python loop `break`s on the first hit), so the final
`list(set(...))` is a no-op up to ordering; we keep the append order. -/
def detect_tags_from_text (text : String) : TagResult :=
  let tl := pyLower text
  let tags :=
    (if containsAny tl vegetarian_keywords then ["vegetarian"] else []) ++
    (if containsAny tl halal_keywords then ["halal"] else []) ++
    (if containsAny tl pork_free_keywords then ["pork_free"] else []) ++
    (if containsAny tl gluten_free_keywords then ["gluten_free"] else []) ++
    (if containsAny tl lactose_free_keywords then ["lactose_free"] else [])
  let certifications :=
    (if containsAny tl bio_keywords then ["bio"] else []) ++
    (if containsAny tl local_keywords then ["local"] else []) ++
    (if containsAny tl french_keywords then ["french_meat"] else [])
  { tags := tags, certifications := certifications }

/-! ## `clean_item_name` -/

def emojiList : List String :=
  ["🌱", "🥬", "🥗", "🕌", "🌿", "🇫🇷", "♻️", "🐟", "🐄", "🐔"]

/-- Python `str.replace(pat, '')`: left-to-right, non-overlapping removal.
Fueled structural recursion; each step consumes at least one input character,
so `length + 1` units of fuel always suffice. -/
def removeSubFuel : Nat → List Char → List Char → List Char
  | 0, _, cs => cs
  | _ + 1, _, [] => []
  | f + 1, pat, c :: t =>
    if pat ≠ [] ∧ pat.isPrefixOf (c :: t) then
      removeSubFuel f pat ((c :: t).drop pat.length)
    else c :: removeSubFuel f pat t

def pyRemove (pat : String) (cs : List Char) : List Char :=
  removeSubFuel (cs.length + 1) pat.data cs

def tagWords : List String := ["vg", "végétarien", "bio", "halal", "sans porc", "local"]

/-- Case-insensitive literal-word match at the head of the input; returns the
remainder after the word. -/
def wordAt : List Char → List Char → Option (List Char)
  | [], cs => some cs
  | _ :: _, [] => none
  | w :: ws, c :: cs => if c.toLower = w then wordAt ws cs else none

/-- Match of `\s*[\(\[](vg|végétarien|bio|halal|sans porc|local)[\)\]]`
(case-insensitive) at the head of the input; returns the remainder after the
whole match. -/
def matchTagAt (cs : List Char) : Option (List Char) :=
  match cs.dropWhile pyIsSpace with
  | b :: rest =>
    if b = '(' ∨ b = '[' then
      tagWords.findSome? (fun w =>
        match wordAt w.data rest with
        | some r2 =>
          match r2 with
          | e :: r3 => if e = ')' ∨ e = ']' then some r3 else none
          | [] => none
        | none => none)
    else none
  | [] => none

/-- `re.sub` with empty replacement: scan left to right, removing every
leftmost match.  A match consumes at least four characters, so `length + 1`
units of fuel always suffice. -/
def cleanTagsFuel : Nat → List Char → List Char
  | 0, cs => cs
  | _ + 1, [] => []
  | f + 1, c :: t =>
    match matchTagAt (c :: t) with
    | some rest => cleanTagsFuel f rest
    | none => c :: cleanTagsFuel f t

/-- `clean_item_name`: strip the known emojis, remove inline tag mentions in
brackets, and strip whitespace. -/
def clean_item_name (name : String) : String :=
  let cs := emojiList.foldl (fun acc e => pyRemove e acc) name.data
  pyStrip (String.mk (cleanTagsFuel (cs.length + 1) cs))

/-! ## Multi-item cell splitting -/

/-- Separator class of the split regex `[,\n]+`. -/
def isSepChar (c : Char) : Bool := c = ',' ∨ c = '\n'

/-- `re.split(r'[,\n]+', s)`: runs of separators cut the string; a leading or
trailing run contributes an empty segment.  The second argument is `some acc`
while a segment (reversed in `acc`) is being built, `none` while a separator
run is being consumed. -/
def splitRunsAux : List Char → Option (List Char) → List String
  | [], some a => [String.mk a.reverse]
  | [], none => [""]
  | c :: t, some a =>
    if isSepChar c then String.mk a.reverse :: splitRunsAux t none
    else splitRunsAux t (some (c :: a))
  | c :: t, none =>
    if isSepChar c then splitRunsAux t none
    else splitRunsAux t (some [c])

def splitRuns (s : String) : List String := splitRunsAux s.data (some [])

example : splitRuns "Steak, Frites\nSalade" = ["Steak", " Frites", "Salade"] := by decide
example : splitRuns "a,,b" = ["a", "b"] := by decide
example : splitRuns ",a," = ["", "a", ""] := by decide
example : clean_item_name " Steak 🌱 (vg) " = "Steak" := by decide
example : detect_tags_from_text "Poulet bio" =
    { tags := ["pork_free"], certifications := ["bio"] } := by decide

/-! ## Rows, column mappings, date configuration -/

/-- A CSV row: a Python `dict` of column name → cell text (keys unique). -/
abbrev Row := List (String × String)

/-- Python `row.get(k, dflt)`. -/
def rowGet (row : Row) (k : String) (dflt : String) : String :=
  match row.find? (fun p => p.1 = k) with
  | some p => p.2
  | none => dflt

/-- Python `d[k] = v` on an insertion-ordered dict: update in place when the
key exists, append otherwise. -/
def dictInsert (d : List (String × String)) (k v : String) : List (String × String) :=
  if d.any (fun p => p.1 = k) then d.map (fun p => if p.1 = k then (k, v) else p)
  else d ++ [(k, v)]

/-- One entry of the `column_mapping` request payload. -/
structure ColMapping where
  csv_column : String
  target_field : String
  category_id : Option String
deriving Repr, DecidableEq

/-- Truthiness of the optional `category_id` (a missing key and an empty
string are both falsy in Python). -/
def catIdTruthy : Option String → Bool
  | some c => c ≠ ""
  | none => false

/-- The mapping-extraction loop at the top of `build_menus_from_rows`:
yields `date_column` (last `'date'` binding wins) and the insertion-ordered
`category_columns` dict. -/
def extractMapping (cm : List ColMapping) : Option String × List (String × String) :=
  cm.foldl (fun acc m =>
    if m.target_field = "date" then (some m.csv_column, acc.2)
    else if m.target_field = "category" ∧ catIdTruthy m.category_id then
      (acc.1, dictInsert acc.2 m.csv_column (m.category_id.getD ""))
    else acc) (none, [])

/-- The `date_config` request payload after the `.get` defaults of the source
(`mode` defaults to `"from_file"`, `skip_weekends` to `True`,
`auto_detect_tags` to `True`, the rest to absent). -/
structure DateConfig where
  mode : String
  start_date : Option String
  skip_weekends : Bool
  date_format : Option Fmt
  auto_detect_tags : Bool
deriving Repr, DecidableEq

/-- Truthiness of the optional `start_date` string. -/
def startTruthy : Option String → Bool
  | some s => s ≠ ""
  | none => false

/-- Start-date resolution of `build_menus_from_rows`: `strptime(s, '%Y-%m-%d')`
for the sequential modes when a (truthy) start date is configured —
`ValueError` on a malformed one — and `date.today()` otherwise. -/
def startDateOf (cfg : DateConfig) (today : Nat) : Except String Nat :=
  if (cfg.mode = "align_week" ∨ cfg.mode = "start_date") ∧ startTruthy cfg.start_date then
    match strptimeDate .ymdDash (cfg.start_date.getD "") with
    | some d => .ok d
    | none => .error "Format de date invalide"
  else .ok today

/-- The `while skip_weekends and current_date.weekday() >= 5` loop, unrolled:
from a Saturday it runs twice, from a Sunday once, otherwise not at all. -/
def skipWeekendsFrom (d : Nat) : Nat :=
  if weekday d = 5 then d + 2
  else if weekday d = 6 then d + 1
  else d

/-- Advance `current_date` by one day, then skip past the weekend if asked. -/
def advanceDate (skip : Bool) (d : Nat) : Nat :=
  if skip then skipWeekendsFrom (d + 1) else d + 1

/-! ## Built items and menus -/

structure BuiltItem where
  category : String
  name : String
  order : Nat
  is_vegetarian : Bool
  tags : List String
  certifications : List String
deriving Repr, DecidableEq

/-- One item dict of the inner loop of `build_menus_from_rows` (`nm` is the
already-stripped, non-blank segment).  `list(set(...))` is modeled as
first-occurrence deduplication; only membership in the tag set is specified,
Python's `set` iteration order being arbitrary. -/
def buildOneItem (auto : Bool) (category_id : String) (order : Nat) (nm : String) : BuiltItem :=
  let item0 : BuiltItem :=
    { category := category_id, name := clean_item_name nm, order := order,
      is_vegetarian := false, tags := [], certifications := [] }
  let item1 :=
    if category_id = "vg" then
      { item0 with is_vegetarian := true, tags := item0.tags ++ ["vegetarian"] }
    else item0
  if auto then
    let det := detect_tags_from_text nm
    { item1 with tags := (item1.tags ++ det.tags).dedup,
                 certifications := det.certifications }
  else item1

/-- The `for order, item_name in enumerate(item_names)` loop over one
(non-blank) cell: blank segments are skipped, the rest are appended in order. -/
def itemsForCell (auto : Bool) (category_id : String) (cell : String) : List BuiltItem :=
  (splitRuns cell).enum.foldl (fun acc p =>
    let nm := pyStrip p.2
    if nm = "" then acc
    else acc ++ [buildOneItem auto category_id p.1 nm]) []

/-- The `for csv_col, category_id in category_columns.items()` loop: one
shared `items` list, filled column by column. -/
def rowItems (auto : Bool) (catCols : List (String × String)) (row : Row) : List BuiltItem :=
  catCols.foldl (fun acc p =>
    let cell := pyStrip (rowGet row p.1 "")
    if cell = "" then acc
    else acc ++ itemsForCell auto p.2 cell) []

/-- One menu of the preview payload.  The Python dict also carries
`date_display` (a locale-dependent `strftime` rendering) and the
preview-only `has_duplicate` / `existing_menu` fields, none of which
the import logic reads back; `date` is stored as the ISO string, which
round-trips identically through `strptime('%Y-%m-%d')` in `confirm_import`,
so we keep the ordinal. -/
structure BuiltMenu where
  date : Nat
  items : List BuiltItem
deriving Repr, DecidableEq

/-- Truthiness of the optional `date_column` (the branch test
`date_mode == 'from_file' and date_column` treats both a missing and an
empty-string column name as falsy). -/
def dateColTruthy : Option String → Bool
  | some s => s ≠ ""
  | none => false

/-- The main row loop of `build_menus_from_rows`, threading `current_date`. -/
def buildLoop (mode : String) (dateCol : Option String) (fmt : Option Fmt)
    (skip : Bool) (auto : Bool) (catCols : List (String × String)) :
    List Row → Nat → List BuiltMenu
  | [], _ => []
  | row :: rest, current_date =>
    if mode = "from_file" ∧ dateColTruthy dateCol then
      match parse_date (rowGet row (dateCol.getD "") "") fmt with
      | none => buildLoop mode dateCol fmt skip auto catCols rest current_date
      | some menu_date =>
        let items := rowItems auto catCols row
        (if items = [] then [] else [{ date := menu_date, items := items }]) ++
          buildLoop mode dateCol fmt skip auto catCols rest current_date
    else
      let items := rowItems auto catCols row
      (if items = [] then [] else [{ date := current_date, items := items }]) ++
        buildLoop mode dateCol fmt skip auto catCols rest (advanceDate skip current_date)

/-- `build_menus_from_rows` (the `restaurant_id` argument is accepted and
ignored, as in the source; `today` stands for `date.today()`). -/
def build_menus_from_rows (rows : List Row) (column_mapping : List ColMapping)
    (date_config : DateConfig) (_restaurant_id : Nat) (today : Nat) :
    Except String (List BuiltMenu) :=
  let dc := (extractMapping column_mapping).1
  let catCols := (extractMapping column_mapping).2
  match startDateOf date_config today with
  | .error e => .error e
  | .ok start =>
    .ok (buildLoop date_config.mode dc date_config.date_format
          date_config.skip_weekends date_config.auto_detect_tags catCols rows start)

/-! ## Delimiter detection and column-mapping suggestion -/

def delimitersList : List Char := [';', ',', '\t', '|']

/-- First line of the sample (`sample.split('\n')[0]`, or the whole sample
when it has no newline — the same thing). -/
def firstLine (s : String) : String :=
  String.mk (s.data.takeWhile (fun c => c ≠ '\n'))

/-- `detect_delimiter`: the candidate with the strictly highest count in the
first line wins; ties and the zero case keep the earlier best (`';'`
initially). -/
def detect_delimiter (sample : String) : Char :=
  (delimitersList.foldl (fun acc d =>
    let count := countChar (firstLine sample) d
    if count > acc.1 then (count, d) else acc) (0, ';')).2

def date_patterns : List String := ["date", "jour", "day", "fecha"]

def category_patterns : List (String × List String) :=
  [("entree", ["entrée", "entree", "starter", "appetizer", "hors d'oeuvre"]),
   ("plat", ["plat", "plat principal", "main", "main course", "dish", "principal"]),
   ("vg", ["vg", "végétarien", "vegetarien", "végé", "vege", "vegan", "vegetarian"]),
   ("dessert", ["dessert", "sweet", "postre"])]

structure SuggestedMapping where
  date : Option String
  categories : List (String × String)
deriving Repr, DecidableEq

/-- Does the lowercased, stripped column name contain one of the patterns? -/
def matchesAnyPattern (pats : List String) (col : String) : Bool :=
  pats.any (fun p => strContains (pyStrip (pyLower col)) p)

/-- One column of the `suggest_column_mapping` loop: the column may (re)bind
the date proposal and, for each category family in order, (re)bind its own
category binding. -/
def suggestStep (acc : SuggestedMapping) (col : String) : SuggestedMapping :=
  let acc1 :=
    if matchesAnyPattern date_patterns col then { acc with date := some col } else acc
  category_patterns.foldl (fun acc2 p =>
    if matchesAnyPattern p.2 col then
      { acc2 with categories := dictInsert acc2.categories col p.1 }
    else acc2) acc1

/-- `suggest_column_mapping`. -/
def suggest_column_mapping (columns : List String) : SuggestedMapping :=
  columns.foldl suggestStep { date := none, categories := [] }

example : detect_delimiter "a;b,c;d;e" = ';' := by decide
example : detect_delimiter "a,b\tc" = ',' := by decide
example : (suggest_column_mapping ["Date", "Plat du jour"]).date = some "Plat du jour" := by decide
example : itemsForCell true "plat" "Steak, Frites\nSalade" =
    [buildOneItem true "plat" 0 "Steak", buildOneItem true "plat" 1 "Frites",
     buildOneItem true "plat" 2 "Salade"] := by decide

/-! ## Persisted menus and the confirm loop (`confirm_import`) -/

/-- A row of the `menu_items` table, inlined into its menu. -/
structure PItem where
  menu_id : Nat
  category : String
  name : String
  order : Nat
  is_vegetarian : Bool
  is_halal : Bool
  is_pork_free : Bool
  tags : List String
  certifications : List String
deriving Repr, DecidableEq

/-- A row of the `menus` table with its items.  `published_at` /
`published_by_id` are subsumed into `status` for this development. -/
structure PMenu where
  id : Nat
  restaurant_id : Nat
  date : Nat
  status : String
  items : List PItem
deriving Repr, DecidableEq

/-- The menu tables plus the id sequence backing `db.session.flush()`. -/
structure MenuDB where
  menus : List PMenu
  next_id : Nat
deriving Repr, DecidableEq

/-- `Menu.query.filter_by(restaurant_id=..., date=...).first()`. -/
def findMenu (db : MenuDB) (rid : Nat) (d : Nat) : Option PMenu :=
  db.menus.find? (fun m => m.restaurant_id = rid ∧ m.date = d)

/-- One `MenuItem(...)` constructor call of the confirm loop (the
`item_data.get('order', idx)` fallback never fires: the builder always sets
`'order'`). -/
def itemToP (menu_id : Nat) (it : BuiltItem) : PItem :=
  { menu_id := menu_id, category := it.category, name := it.name,
    order := it.order,
    is_vegetarian := it.tags.contains "vegetarian",
    is_halal := it.tags.contains "halal",
    is_pork_free := it.tags.contains "pork_free",
    tags := it.tags, certifications := it.certifications }

/-- Append the built items to `menu` and apply `auto_publish`. -/
def finishMenu (menu : PMenu) (md : BuiltMenu) (auto_publish : Bool) : PMenu :=
  let menu' := { menu with items := menu.items ++ md.items.map (itemToP menu.id) }
  if auto_publish then { menu' with status := "published" } else menu'

/-- Write back an updated menu row (matched by primary key). -/
def updateMenu (db : MenuDB) (m : PMenu) : MenuDB :=
  { db with menus := db.menus.map (fun x => if x.id = m.id then m else x) }

structure ConfirmCounts where
  imported : Nat
  replaced : Nat
  skipped : Nat
deriving Repr, DecidableEq

/-- One iteration of the `for menu_data in menus_data` loop of
`confirm_import`. -/
def confirmStep (duplicate_action : String) (auto_publish : Bool) (rid : Nat)
    (st : MenuDB × ConfirmCounts) (md : BuiltMenu) : MenuDB × ConfirmCounts :=
  let db := st.1
  let counts := st.2
  match findMenu db rid md.date with
  | some existing =>
    if duplicate_action = "skip" then
      (db, { counts with skipped := counts.skipped + 1 })
    else if duplicate_action = "replace" then
      let menu := finishMenu { existing with items := [] } md auto_publish
      (updateMenu db menu, { counts with replaced := counts.replaced + 1 })
    else if duplicate_action = "merge" then
      let menu := finishMenu existing md auto_publish
      (updateMenu db menu, { counts with replaced := counts.replaced + 1 })
    else (db, counts)
  | none =>
    let fresh : PMenu :=
      { id := db.next_id, restaurant_id := rid, date := md.date,
        status := "draft", items := [] }
    let menu := finishMenu fresh md auto_publish
    ({ menus := db.menus ++ [menu], next_id := db.next_id + 1 },
     { counts with imported := counts.imported + 1 })

/-- The whole confirm loop. -/
def processMenus (duplicate_action : String) (auto_publish : Bool) (rid : Nat)
    (db : MenuDB) (ms : List BuiltMenu) : MenuDB × ConfirmCounts :=
  ms.foldl (confirmStep duplicate_action auto_publish rid)
    (db, { imported := 0, replaced := 0, skipped := 0 })

/-! ## Import sessions (`ImportSession`) -/

/-- A row of the `import_session` table (times are abstract instants on `Nat`;
the parsed `rows`/`columns` payload is kept structured rather than as its
JSON text). -/
structure SessionRec where
  id : String
  user_id : Nat
  filename : String
  columns : List String
  rows : List Row
  expires_at : Nat
deriving Repr, DecidableEq

/-- `ImportSession.is_expired`: `datetime.utcnow() > self.expires_at`. -/
def is_expired (now : Nat) (s : SessionRec) : Bool :=
  now > s.expires_at

/-- `ImportSession.get_valid`: primary-key-and-owner lookup, then the
expiry check; every failure collapses to `none`. -/
def get_valid (sessions : List SessionRec) (sid : String) (uid : Nat) (now : Nat) :
    Option SessionRec :=
  match sessions.find? (fun s => s.id = sid ∧ s.user_id = uid) with
  | some s => if ¬ is_expired now s then some s else none
  | none => none

/-! ## The confirm route -/

/-- The audit-log entry written by `confirm_import` (the fields of its
`details` payload inlined). -/
structure AuditEntry where
  action : String
  user_id : Nat
  filename : String
  imported_count : Nat
  replaced_count : Nat
  skipped_count : Nat
  auto_publish : Bool
deriving Repr, DecidableEq

/-- The committed server state touched by `confirm_import`. -/
structure ServerState where
  db : MenuDB
  audit : List AuditEntry
  sessions : List SessionRec
deriving Repr, DecidableEq

inductive ConfirmOutcome where
  | ok (imported replaced skipped : Nat)
  | error
deriving Repr, DecidableEq

/-- The confirm loop under the possibility of a runtime exception:
`failAt = some k` with `k < ms.length` models an exception raised while
processing the `k`-th menu (`none` is returned — the pending writes are
discarded by the caller's `db.session.rollback()`). -/
def processMenusExc (duplicate_action : String) (auto_publish : Bool) (rid : Nat)
    (db : MenuDB) (ms : List BuiltMenu) (failAt : Option Nat) :
    Option (MenuDB × ConfirmCounts) :=
  match failAt with
  | some k => if k < ms.length then none
              else some (processMenus duplicate_action auto_publish rid db ms)
  | none => some (processMenus duplicate_action auto_publish rid db ms)

/-- `confirm_import` (route body after request decoding, for a caller that
supplies a `restaurant_id`).  All writes stay pending until
`db.session.commit()`: on any error path the transaction is rolled back and
the committed state `st` is returned unchanged.  On success the menus and the
single audit entry commit together, and only then is the session row deleted. -/
def confirm_import (st : ServerState) (sid : String) (uid : Nat) (now : Nat)
    (column_mapping : List ColMapping) (date_config : DateConfig)
    (duplicate_action : String) (auto_publish : Bool) (rid : Nat) (today : Nat)
    (failAt : Option Nat) : ServerState × ConfirmOutcome :=
  match get_valid st.sessions sid uid now with
  | none => (st, .error)
  | some session =>
    match build_menus_from_rows session.rows column_mapping date_config rid today with
    | .error _ => (st, .error)
    | .ok menus_data =>
      match processMenusExc duplicate_action auto_publish rid st.db menus_data failAt with
      | none => (st, .error)
      | some (db', counts) =>
        let entry : AuditEntry :=
          { action := "csv_import", user_id := uid, filename := session.filename,
            imported_count := counts.imported, replaced_count := counts.replaced,
            skipped_count := counts.skipped, auto_publish := auto_publish }
        let st' : ServerState :=
          { db := db', audit := st.audit ++ [entry],
            sessions := st.sessions.filter (fun s => s.id ≠ session.id) }
        (st', .ok counts.imported counts.replaced counts.skipped)

example : strptimeDate .ymdDash "2024-09-07" = some (toOrdinal 2024 9 7) := by decide

/-! ## Helper lemmas -/

deriving instance DecidableEq for Except

theorem foldl_skip_append {α β : Type} (c : α → Prop) [DecidablePred c] (f : α → β)
    (l : List α) (acc : List β) :
    l.foldl (fun a p => if c p then a else a ++ [f p]) acc
      = acc ++ l.filterMap (fun p => if c p then none else some (f p)) := by
  induction l generalizing acc with
  | nil => simp
  | cons x xs ih =>
    by_cases h : c x <;> simp [h, ih, List.filterMap_cons]

theorem foldl_skip_append_list {α β : Type} (c : α → Prop) [DecidablePred c]
    (g : α → List β) (l : List α) (acc : List β) :
    l.foldl (fun a p => if c p then a else a ++ g p) acc
      = acc ++ (l.map (fun p => if c p then [] else g p)).flatten := by
  induction l generalizing acc with
  | nil => simp
  | cons x xs ih =>
    by_cases h : c x <;> simp [h, ih]

/-! ## C7 — delimiter detection -/

/-- C7, counterexample.  For the header line `"a,b\tc"` the comma and the tab
tie for the maximum count (1 each, every candidate count being ≤ 1), yet the
detector returns `','`, not the semicolon the claim requires on a tie. -/
theorem detect_delimiter_tie_counterexample :
    detect_delimiter "a,b\tc" = ',' ∧
    countChar (firstLine "a,b\tc") ',' = countChar (firstLine "a,b\tc") '\t' ∧
    (∀ d ∈ delimitersList, countChar (firstLine "a,b\tc") d ≤ 1) ∧
    (',' : Char) ≠ ';' := by
  refine ⟨by decide, by decide, ?_, by decide⟩
  decide

/-- C7 (amended): `detect_delimiter` returns, among semicolon, comma, tab and
pipe, a delimiter occurring maximally often in the first line; on a tie the
candidate *earliest in that fixed order* among the tied ones wins (semicolon
only when it is itself among the tied maxima — in particular whenever no
candidate occurs at all); for the header line `"a;b,c;d;e"` it returns `';'`
(which occurs more often than the comma). -/
theorem detect_delimiter_spec :
    (∀ s, detect_delimiter s ∈ delimitersList) ∧
    (∀ s, ∀ d ∈ delimitersList,
       countChar (firstLine s) d ≤ countChar (firstLine s) (detect_delimiter s)) ∧
    (∀ s, ∀ d ∈ delimitersList,
       countChar (firstLine s) d = countChar (firstLine s) (detect_delimiter s) →
       delimitersList.indexOf (detect_delimiter s) ≤ delimitersList.indexOf d) ∧
    (∀ s, (∀ d ∈ delimitersList, countChar (firstLine s) d = 0) →
       detect_delimiter s = ';') ∧
    detect_delimiter "a;b,c;d;e" = ';' := by
  refine ⟨?_, ?_, ?_, ?_, by decide⟩
  · intro s
    simp only [detect_delimiter, delimitersList, List.foldl_cons, List.foldl_nil]
    split_ifs <;> simp
  · intro s d hd
    simp only [delimitersList, List.mem_cons, List.not_mem_nil, or_false] at hd
    simp only [detect_delimiter, delimitersList, List.foldl_cons, List.foldl_nil]
    rcases hd with rfl | rfl | rfl | rfl <;> (split_ifs <;> simp_all <;> omega)
  · intro s d hd heq
    simp only [delimitersList, List.mem_cons, List.not_mem_nil, or_false] at hd
    simp only [detect_delimiter, delimitersList, List.foldl_cons, List.foldl_nil] at heq ⊢
    rcases hd with rfl | rfl | rfl | rfl <;>
      (split_ifs at heq ⊢ <;> simp_all <;> omega)
  · intro s h
    simp only [delimitersList, List.mem_cons, List.not_mem_nil, or_false] at h
    have h1 := h ';' (by simp)
    have h2 := h ',' (by simp)
    have h3 := h '\t' (by simp)
    have h4 := h '|' (by simp)
    simp only [detect_delimiter, delimitersList, List.foldl_cons, List.foldl_nil]
    split_ifs <;> simp_all

/-! ## C3 — column-mapping suggestion -/

theorem getLast?_cons {α : Type} (x : α) (xs : List α) :
    (x :: xs).getLast? = xs.getLast?.or (some x) := by
  cases xs <;> simp [List.getLast?]

/-- The inner category loop of `suggest_column_mapping` never touches the
proposed date column. -/
theorem catFold_date (l : List (String × List String)) (acc : SuggestedMapping)
    (col : String) :
    (l.foldl (fun acc2 p =>
      if matchesAnyPattern p.2 col then
        { acc2 with categories := dictInsert acc2.categories col p.1 }
      else acc2) acc).date = acc.date := by
  induction l generalizing acc with
  | nil => rfl
  | cons p ps ih => by_cases h : matchesAnyPattern p.2 col <;> simp [h, ih]

/-- One `suggestStep` on the date proposal: a matching column re-binds it. -/
theorem suggestStep_date (acc : SuggestedMapping) (col : String) :
    (suggestStep acc col).date
      = if matchesAnyPattern date_patterns col then some col else acc.date := by
  unfold suggestStep
  rw [catFold_date]
  by_cases h : matchesAnyPattern date_patterns col <;> simp [h]

/-- The date proposal of the column fold: the *last* matching column wins. -/
theorem suggest_fold_date (cols : List String) (acc : SuggestedMapping) :
    (cols.foldl suggestStep acc).date
      = ((cols.filter (matchesAnyPattern date_patterns)).getLast?).or acc.date := by
  induction cols generalizing acc with
  | nil => rfl
  | cons c cs ih =>
    simp only [List.foldl_cons, List.filter_cons]
    by_cases h : matchesAnyPattern date_patterns c
    · rw [ih]
      simp only [h, if_pos, getLast?_cons, suggestStep_date]
      cases (cs.filter (matchesAnyPattern date_patterns)).getLast? <;> rfl
    · rw [ih]
      simp [h, suggestStep_date]

/-- C3, counterexample.  For the column list `["Date", "Plat du jour"]` the
first column whose lowercased name contains a date substring is `"Date"`
(it contains `"date"`), but the advisor proposes `"Plat du jour"` (which
contains `"jour"`): the *last* matching column wins, not the first. -/
theorem suggest_mapping_counterexample :
    (suggest_column_mapping ["Date", "Plat du jour"]).date = some "Plat du jour" ∧
    matchesAnyPattern date_patterns "Date" = true ∧
    "Date" ≠ "Plat du jour" := by
  refine ⟨by decide, by decide, by decide⟩

/-- C3 (amended): `suggest_column_mapping` is a pure function of the column
list (hence deterministic) and proposes at most one date column, namely the
*last* column in list order whose lowercased, stripped name contains one of
the fixed date substrings (`'date'`, `'jour'`, `'day'`, `'fecha'`) — the
loop re-binds the proposal on every match, so the final match wins. -/
theorem suggest_mapping_date_spec :
    (∀ cols₁ cols₂ : List String, cols₁ = cols₂ →
       suggest_column_mapping cols₁ = suggest_column_mapping cols₂) ∧
    (∀ cols : List String,
       (suggest_column_mapping cols).date
         = (cols.filter (matchesAnyPattern date_patterns)).getLast?) ∧
    (∀ cols : List String, ∀ c : String,
       (suggest_column_mapping cols).date = some c →
       c ∈ cols ∧ matchesAnyPattern date_patterns c = true) := by
  refine ⟨fun _ _ h => by rw [h], ?_, ?_⟩
  · intro cols
    have h := suggest_fold_date cols { date := none, categories := [] }
    simpa [suggest_column_mapping] using h
  · intro cols c hc
    have h := suggest_fold_date cols { date := none, categories := [] }
    simp only [suggest_column_mapping] at hc
    rw [h] at hc
    simp only [Option.or] at hc
    rcases hlast : (cols.filter (matchesAnyPattern date_patterns)).getLast? with _ | d
    · rw [hlast] at hc; cases hc
    · rw [hlast] at hc
      cases hc
      have hmem : c ∈ cols.filter (matchesAnyPattern date_patterns) := by
        obtain ⟨hne, heq⟩ := List.mem_getLast?_eq_getLast (Option.mem_def.mpr hlast)
        exact heq ▸ List.getLast_mem hne
      have := List.of_mem_filter hmem
      exact ⟨List.mem_of_mem_filter hmem, this⟩

/-! ## C6 — import-session validity -/

/-- A session whose expiry instant has just been reached. -/
def boundarySession : SessionRec :=
  { id := "t", user_id := 1, filename := "f.csv", columns := [], rows := [],
    expires_at := 100 }

/-- C6, counterexample.  At `now = expires_at` the session is still returned
(`is_expired` tests `now > expires_at`), although `now < expires_at` fails:
the claim's validity invariant `now < expires_at` does not match the code. -/
theorem get_valid_boundary_counterexample :
    get_valid [boundarySession] "t" 1 100 = some boundarySession ∧
    ¬ ((100 : Nat) < 100) := by
  exact ⟨by decide, by decide⟩

/-- C6 (amended): `get_valid` returns the stored session iff a session with
that token exists, its owner is the requester, and the expiry instant has not
*passed* — the enforced invariant is `now ≤ expires_at` (the code tests
`now > expires_at`), checked at read time; in every other case (unknown
token, wrong owner, expiry passed) it returns the one `none` result, so the
failure cases are indistinguishable to the caller. -/
theorem get_valid_spec (sessions : List SessionRec) (sid : String) (uid : Nat)
    (now : Nat) (s : SessionRec) :
    (get_valid sessions sid uid now = some s ↔
      (sessions.find? (fun t => t.id = sid ∧ t.user_id = uid) = some s ∧
       now ≤ s.expires_at)) ∧
    (get_valid sessions sid uid now = some s → s.id = sid ∧ s.user_id = uid) ∧
    ((¬ ∃ t, sessions.find? (fun u => u.id = sid ∧ u.user_id = uid) = some t ∧
        now ≤ t.expires_at) →
      get_valid sessions sid uid now = none) := by
  refine ⟨?_, ?_, ?_⟩
  · unfold get_valid is_expired
    cases hf : sessions.find? (fun t => t.id = sid ∧ t.user_id = uid) with
    | none => simp
    | some t =>
      constructor
      · intro h
        by_cases hexp : now > t.expires_at
        · simp [hexp] at h
        · simp [hexp] at h
          subst h
          exact ⟨rfl, Nat.le_of_not_lt hexp⟩
      · rintro ⟨hst, hle⟩
        injection hst with hst
        subst hst
        simp [Nat.not_lt_of_le hle]
  · intro h
    unfold get_valid at h
    cases hf : sessions.find? (fun t => t.id = sid ∧ t.user_id = uid) with
    | none => rw [hf] at h; cases h
    | some t =>
      rw [hf] at h
      have hp := List.find?_some hf
      by_cases hexp : is_expired now t
      · simp [hexp] at h
      · simp [hexp] at h
        subst h
        simpa using hp
  · intro h
    unfold get_valid
    cases hf : sessions.find? (fun u => u.id = sid ∧ u.user_id = uid) with
    | none => rfl
    | some u =>
      by_cases hexp : is_expired now u
      · simp [hexp]
      · refine absurd ⟨u, hf, ?_⟩ h
        unfold is_expired at hexp
        simpa [Nat.not_lt] using hexp

/-! ## Item-construction lemmas (shared by the item-splitting and tagging claims) -/

theorem buildOneItem_order (auto : Bool) (cid : String) (o : Nat) (nm : String) :
    (buildOneItem auto cid o nm).order = o := by
  unfold buildOneItem
  split_ifs <;> rfl

theorem buildOneItem_category (auto : Bool) (cid : String) (o : Nat) (nm : String) :
    (buildOneItem auto cid o nm).category = cid := by
  unfold buildOneItem
  split_ifs <;> rfl

theorem buildOneItem_vg_tag (auto : Bool) (o : Nat) (nm : String) :
    "vegetarian" ∈ (buildOneItem auto "vg" o nm).tags := by
  unfold buildOneItem
  cases auto with
  | false => simp
  | true =>
    simp only [if_pos, if_true]
    exact List.mem_dedup.mpr (by simp)

/-- The per-cell loop, as a filterMap over the enumerated segments. -/
theorem itemsForCell_eq_filterMap (auto : Bool) (cat : String) (cell : String) :
    itemsForCell auto cat cell
      = (splitRuns cell).enum.filterMap (fun p =>
          if pyStrip p.2 = "" then none
          else some (buildOneItem auto cat p.1 (pyStrip p.2))) := by
  have h := foldl_skip_append (fun p : Nat × String => pyStrip p.2 = "")
    (fun p : Nat × String => buildOneItem auto cat p.1 (pyStrip p.2))
    (splitRuns cell).enum []
  simpa [itemsForCell] using h

/-- The per-row loop, as a flattened map over the category columns. -/
theorem rowItems_eq_flatten (auto : Bool) (catCols : List (String × String)) (row : Row) :
    rowItems auto catCols row
      = (catCols.map (fun p =>
          if pyStrip (rowGet row p.1 "") = "" then []
          else itemsForCell auto p.2 (pyStrip (rowGet row p.1 "")))).flatten := by
  have h := foldl_skip_append_list (fun p : String × String => pyStrip (rowGet row p.1 "") = "")
    (fun p : String × String => itemsForCell auto p.2 (pyStrip (rowGet row p.1 "")))
    catCols []
  simpa [rowItems] using h

theorem mem_itemsForCell (auto : Bool) (cat : String) (cell : String)
    (it : BuiltItem) (h : it ∈ itemsForCell auto cat cell) :
    ∃ o nm, it = buildOneItem auto cat o nm ∧ o < (splitRuns cell).length := by
  rw [itemsForCell_eq_filterMap] at h
  obtain ⟨p, hp, hit⟩ := List.mem_filterMap.mp h
  by_cases hb : pyStrip p.2 = ""
  · simp [hb] at hit
  · simp only [hb, if_neg, if_false] at hit
    injection hit with hit
    refine ⟨p.1, pyStrip p.2, hit.symm, ?_⟩
    rw [List.mem_enum_iff_getElem?] at hp
    exact (List.getElem?_eq_some.mp hp).1

theorem mem_rowItems (auto : Bool) (catCols : List (String × String)) (row : Row)
    (it : BuiltItem) (h : it ∈ rowItems auto catCols row) :
    ∃ pc ∈ catCols, ∃ o nm, it = buildOneItem auto pc.2 o nm := by
  rw [rowItems_eq_flatten] at h
  obtain ⟨l, hl, hit⟩ := List.mem_flatten.mp h
  obtain ⟨pc, hpc, hleq⟩ := List.mem_map.mp hl
  subst hleq
  by_cases hb : pyStrip (rowGet row pc.1 "") = ""
  · simp [hb] at hit
  · simp only [hb, if_neg, if_false] at hit
    obtain ⟨o, nm, heq, _⟩ := mem_itemsForCell _ _ _ _ hit
    exact ⟨pc, hpc, o, nm, heq⟩

/-- Every menu emitted by the row loop carries the items of some row. -/
theorem mem_buildLoop (mode : String) (dc : Option String) (fmt : Option Fmt)
    (skip auto : Bool) (cat : List (String × String)) :
    ∀ (rows : List Row) (d : Nat) (m : BuiltMenu),
      m ∈ buildLoop mode dc fmt skip auto cat rows d →
      ∃ row, m.items = rowItems auto cat row := by
  intro rows
  induction rows with
  | nil => intro d m h; simp [buildLoop] at h
  | cons r rs ih =>
    intro d m h
    rw [buildLoop] at h
    by_cases hc : mode = "from_file" ∧ dateColTruthy dc
    · rw [if_pos hc] at h
      cases hp : parse_date (rowGet r (dc.getD "") "") fmt with
      | none => rw [hp] at h; exact ih d m h
      | some md =>
        rw [hp] at h
        rcases List.mem_append.mp h with hmem | hmem
        · by_cases hi : rowItems auto cat r = []
          · simp [hi] at hmem
          · rw [if_neg hi] at hmem
            simp only [List.mem_singleton] at hmem
            exact ⟨r, by rw [hmem]⟩
        · exact ih d m hmem
    · rw [if_neg hc] at h
      rcases List.mem_append.mp h with hmem | hmem
      · by_cases hi : rowItems auto cat r = []
        · simp [hi] at hmem
        · rw [if_neg hi] at hmem
          simp only [List.mem_singleton] at hmem
          exact ⟨r, by rw [hmem]⟩
      · exact ih _ m hmem

/-! ## C8 — multi-item cell splitting -/

/-- C8 (confirmed): a non-blank cell bound to a category is split on runs of
commas and newlines; blank segments are discarded; each surviving segment
becomes one `BuiltItem` whose order index is its position in that column's
segment list; item lists are built per column and concatenated, so numbering
restarts with each column; and the cell `"Steak, Frites\nSalade"` yields
exactly the three items `"Steak"`, `"Frites"`, `"Salade"` with order
indices 0, 1, 2. -/
theorem cell_splitting_spec :
    (∀ (auto : Bool) (cat : String) (cell : String),
       itemsForCell auto cat cell
         = (splitRuns cell).enum.filterMap (fun p =>
             if pyStrip p.2 = "" then none
             else some (buildOneItem auto cat p.1 (pyStrip p.2)))) ∧
    (∀ (auto : Bool) (catCols : List (String × String)) (row : Row),
       rowItems auto catCols row
         = (catCols.map (fun p =>
             if pyStrip (rowGet row p.1 "") = "" then []
             else itemsForCell auto p.2 (pyStrip (rowGet row p.1 "")))).flatten) ∧
    (∀ (auto : Bool) (cat : String) (cell : String), ∀ it ∈ itemsForCell auto cat cell,
       it.order < (splitRuns cell).length) ∧
    (itemsForCell true "plat" "Steak, Frites\nSalade"
       = [{ category := "plat", name := "Steak", order := 0, is_vegetarian := false,
            tags := [], certifications := [] },
          { category := "plat", name := "Frites", order := 1, is_vegetarian := false,
            tags := [], certifications := [] },
          { category := "plat", name := "Salade", order := 2, is_vegetarian := false,
            tags := [], certifications := [] }]) := by
  refine ⟨itemsForCell_eq_filterMap, rowItems_eq_flatten, ?_, by decide⟩
  intro auto cat cell it hit
  obtain ⟨o, nm, heq, hlt⟩ := mem_itemsForCell auto cat cell it hit
  rw [heq, buildOneItem_order]
  exact hlt

/-! ## C9 — forced vegetarian tag -/

/-- C9 (confirmed): every item built under the vegetarian-option category id
`"vg"` — in any menu produced by `build_menus_from_rows`, for any cell text
and whether or not tag auto-detection is enabled — carries the
`"vegetarian"` tag (the forced tag survives the union with detected tags). -/
theorem vg_items_tagged (rows : List Row) (cm : List ColMapping) (cfg : DateConfig)
    (rid today : Nat) (menus : List BuiltMenu)
    (hb : build_menus_from_rows rows cm cfg rid today = .ok menus) :
    ∀ m ∈ menus, ∀ it ∈ m.items, it.category = "vg" → "vegetarian" ∈ it.tags := by
  intro m hm it hit hcat
  unfold build_menus_from_rows at hb
  cases hs : startDateOf cfg today with
  | error e => rw [hs] at hb; cases hb
  | ok start =>
    rw [hs] at hb
    injection hb with hb
    rw [← hb] at hm
    obtain ⟨row, hrow⟩ := mem_buildLoop _ _ _ _ _ _ _ _ m hm
    rw [hrow] at hit
    obtain ⟨pc, _, o, nm, heq⟩ := mem_rowItems _ _ _ _ hit
    have hcid : pc.2 = "vg" := by
      rw [heq, buildOneItem_category] at hcat
      exact hcat
    rw [heq, hcid]
    exact buildOneItem_vg_tag _ _ _

/-! ## C1 — sequential date modes -/

/-- The row loop in the sequential modes: the first row is dated with the
start date as-is; each later row advances by `advanceDate`. -/
def assignSeq (auto skip : Bool) (catCols : List (String × String)) :
    List Row → Nat → List BuiltMenu
  | [], _ => []
  | row :: rest, d =>
    (if rowItems auto catCols row = [] then []
     else [{ date := d, items := rowItems auto catCols row }]) ++
      assignSeq auto skip catCols rest (advanceDate skip d)

theorem buildLoop_sequential (mode : String) (dc : Option String) (fmt : Option Fmt)
    (skip auto : Bool) (cat : List (String × String))
    (hmode : ¬ (mode = "from_file" ∧ dateColTruthy dc)) :
    ∀ (rows : List Row) (d : Nat),
      buildLoop mode dc fmt skip auto cat rows d = assignSeq auto skip cat rows d := by
  intro rows
  induction rows with
  | nil => intro d; rfl
  | cons r rs ih =>
    intro d
    rw [buildLoop, if_neg hmode, assignSeq, ih]

def c1Mapping : List ColMapping :=
  [{ csv_column := "Plat", target_field := "category", category_id := some "plat" }]

def c1Cfg : DateConfig :=
  { mode := "start_date", start_date := some "2024-09-07", skip_weekends := true,
    date_format := none, auto_detect_tags := true }

/-- C1, counterexample.  With mode `start_date`, skip-weekends on, and start
date 2024-09-07 — a Saturday — the single row is dated with that Saturday:
the weekend skip is applied only when *advancing*, never to the initial
assignment, so the first row's date can be a weekend. -/
theorem sequential_weekend_start_counterexample :
    build_menus_from_rows [[("Plat", "Plat du jour")]] c1Mapping c1Cfg 1 0
      = .ok [{ date := toOrdinal 2024 9 7,
               items := [buildOneItem true "plat" 0 "Plat du jour"] }] ∧
    weekday (toOrdinal 2024 9 7) = 5 ∧
    c1Cfg.skip_weekends = true := by
  exact ⟨by decide, by decide, rfl⟩

/-- C1 (amended): in modes `align_week` / `start_date` the builder ignores
any date column and dates the rows sequentially from the configured start
date (today when unset), one calendar day per row; with the skip-weekends
flag set, every *advance* lands on a weekday (Saturday and Sunday are
skipped), but the *initial* assignment uses the start date as-is, weekend or
not; with the flag unset the advance is exactly one day. -/
theorem sequential_mode_spec (rows : List Row) (cm : List ColMapping)
    (cfg : DateConfig) (rid today : Nat)
    (hmode : cfg.mode = "align_week" ∨ cfg.mode = "start_date") :
    (build_menus_from_rows rows cm cfg rid today
       = (startDateOf cfg today).map (fun start =>
           assignSeq cfg.auto_detect_tags cfg.skip_weekends (extractMapping cm).2 rows start)) ∧
    (¬ startTruthy cfg.start_date = true → startDateOf cfg today = .ok today) ∧
    (∀ d, weekday (advanceDate true d) < 5) ∧
    (∀ d, advanceDate false d = d + 1) := by
  refine ⟨?_, ?_, ?_, fun d => rfl⟩
  · have hne : ¬ (cfg.mode = "from_file" ∧ dateColTruthy (extractMapping cm).1) := by
      rcases hmode with h | h <;> (rw [h]; simp)
    unfold build_menus_from_rows
    cases hs : startDateOf cfg today with
    | error e => rfl
    | ok start =>
      exact congrArg Except.ok (buildLoop_sequential _ _ _ _ _ _ hne rows start)
  · intro h
    unfold startDateOf
    rw [if_neg]
    intro hcontra
    exact h hcontra.2
  · intro d
    simp only [advanceDate, skipWeekendsFrom, weekday, if_true]
    split_ifs <;> omega

def c1wCfg : DateConfig :=
  { mode := "start_date", start_date := some "2024-09-02", skip_weekends := true,
    date_format := none, auto_detect_tags := true }

/-- Witness for the sequential-mode theorem: 2024-09-02 is a Monday; seven
rows are dated with the five weekdays of that week followed by the first two
weekdays of the next (September 9 and 10), weekends never assigned. -/
theorem sequential_mode_spec_witness :
    build_menus_from_rows (List.replicate 7 [("Plat", "Plat du jour")]) c1Mapping c1wCfg 1 0
      = .ok [{ date := toOrdinal 2024 9 2, items := [buildOneItem true "plat" 0 "Plat du jour"] },
             { date := toOrdinal 2024 9 3, items := [buildOneItem true "plat" 0 "Plat du jour"] },
             { date := toOrdinal 2024 9 4, items := [buildOneItem true "plat" 0 "Plat du jour"] },
             { date := toOrdinal 2024 9 5, items := [buildOneItem true "plat" 0 "Plat du jour"] },
             { date := toOrdinal 2024 9 6, items := [buildOneItem true "plat" 0 "Plat du jour"] },
             { date := toOrdinal 2024 9 9, items := [buildOneItem true "plat" 0 "Plat du jour"] },
             { date := toOrdinal 2024 9 10, items := [buildOneItem true "plat" 0 "Plat du jour"] }] ∧
    weekday (toOrdinal 2024 9 2) = 0 ∧
    (∀ k, weekday (toOrdinal 2024 9 2 + k) ≥ 5 →
      ∀ m ∈ [toOrdinal 2024 9 2, toOrdinal 2024 9 3, toOrdinal 2024 9 4, toOrdinal 2024 9 5,
             toOrdinal 2024 9 6, toOrdinal 2024 9 9, toOrdinal 2024 9 10],
        m ≠ toOrdinal 2024 9 2 + k) := by
  refine ⟨?_, by decide, ?_⟩
  · rw [(sequential_mode_spec (List.replicate 7 [("Plat", "Plat du jour")]) c1Mapping c1wCfg
      1 0 (Or.inr rfl)).1]
    decide
  · intro k hk m hm
    intro hcontra
    have h2 := (sequential_mode_spec (List.replicate 7 [("Plat", "Plat du jour")]) c1Mapping
      c1wCfg 1 0 (Or.inr rfl)).2.2.1
    fin_cases hm <;>
      (rw [← hcontra] at hk; revert hk; decide)

/-! ## C2 — from-file date mode -/

/-- One row of the `from_file` branch: parse the mapped date cell, drop the
row when the date is missing/unparseable or no items survive. -/
def fromFileRow (auto : Bool) (dc : String) (fmt : Option Fmt)
    (catCols : List (String × String)) (row : Row) : Option BuiltMenu :=
  match parse_date (rowGet row dc "") fmt with
  | none => none
  | some d =>
    if rowItems auto catCols row = [] then none
    else some { date := d, items := rowItems auto catCols row }

theorem buildLoop_from_file (dc : String) (hdc : dc ≠ "") (fmt : Option Fmt)
    (skip auto : Bool) (cat : List (String × String)) :
    ∀ (rows : List Row) (d : Nat),
      buildLoop "from_file" (some dc) fmt skip auto cat rows d
        = rows.filterMap (fromFileRow auto dc fmt cat) := by
  intro rows
  induction rows with
  | nil => intro d; rfl
  | cons r rs ih =>
    intro d
    rw [buildLoop, if_pos ⟨rfl, by simp [dateColTruthy, hdc]⟩, List.filterMap_cons]
    simp only [Option.getD_some]
    cases hp : parse_date (rowGet r dc "") fmt with
    | none =>
      have hf : fromFileRow auto dc fmt cat r = none := by
        unfold fromFileRow
        rw [hp]
      rw [hf, ih]
    | some md =>
      by_cases hi : rowItems auto cat r = []
      · have hf : fromFileRow auto dc fmt cat r = none := by
          unfold fromFileRow
          rw [hp]
          simp [hi]
        rw [hf, ih]
        simp [hi]
      · have hf : fromFileRow auto dc fmt cat r
            = some { date := md, items := rowItems auto cat r } := by
          unfold fromFileRow
          rw [hp]
          simp [hi]
        rw [hf, ih]
        simp [hi]

/-- C2 (confirmed): in mode `from_file` with a mapped date column (a truthy
one — an empty column name is falsy and routes to the sequential branch, as
in the source's `and date_column` test), each row's date cell is parsed with
the configured explicit format, falling back to auto-detection when the
explicit format fails (or is absent — `parse_date`'s `none` branch); rows
whose date cell is absent or unparseable contribute no `BuiltMenu` while all
other rows are still processed, in order. -/
theorem from_file_mode_spec (rows : List Row) (cm : List ColMapping)
    (cfg : DateConfig) (rid today : Nat) (dc : String)
    (hmode : cfg.mode = "from_file") (hdc : (extractMapping cm).1 = some dc)
    (hne : dc ≠ "") :
    (build_menus_from_rows rows cm cfg rid today
       = .ok (rows.filterMap
           (fromFileRow cfg.auto_detect_tags dc cfg.date_format (extractMapping cm).2))) ∧
    (∀ (s : String) (f : Fmt), strptimeDate f (pyStrip s) = none →
       parse_date s (some f) = parse_date s none) ∧
    (∀ (s : String) (f : Fmt) (d : Nat), strptimeDate f (pyStrip s) = some d →
       parse_date s (some f) = some d) ∧
    (∀ row : Row, rowGet row dc "" = "" →
       fromFileRow cfg.auto_detect_tags dc cfg.date_format (extractMapping cm).2 row = none) := by
  refine ⟨?_, ?_, ?_, ?_⟩
  · have hstart : startDateOf cfg today = .ok today := by
      unfold startDateOf
      rw [hmode]
      simp
    unfold build_menus_from_rows
    rw [hstart, hdc, hmode]
    exact congrArg Except.ok (buildLoop_from_file dc hne cfg.date_format cfg.skip_weekends
      cfg.auto_detect_tags (extractMapping cm).2 rows today)
  · intro s f h
    unfold parse_date
    by_cases hb : pyStrip s = ""
    · simp [hb]
    · simp only [hb, if_neg, if_false]
      rw [h]
  · intro s f d h
    have hb : ¬ pyStrip s = "" := by
      intro hb
      rw [hb] at h
      cases f <;> simp [strptimeDate, Fmt.toks, runToks, parseYear4, parseMonth, parseDay] at h
    unfold parse_date
    simp only [hb, if_neg, if_false]
    rw [h]
  · intro row h
    unfold fromFileRow
    rw [h]
    have hp : parse_date "" cfg.date_format = none := by
      unfold parse_date
      simp [pyStrip, pyStripChars]
    rw [hp]

example :
    build_menus_from_rows [[("Plat", "A")]]
      [{ csv_column := "", target_field := "date", category_id := none },
       { csv_column := "Plat", target_field := "category", category_id := some "plat" }]
      { mode := "from_file", start_date := none, skip_weekends := true,
        date_format := none, auto_detect_tags := true } 1 777
      = .ok [{ date := 777, items := [buildOneItem true "plat" 0 "A"] }] := by decide

def c2Rows : List Row :=
  [[("Date", "2024-09-02"), ("Plat", "A")],
   [("Date", "not-a-date"), ("Plat", "B")],
   [("Date", "2024-09-03"), ("Plat", "C")]]

def c2Mapping : List ColMapping :=
  [{ csv_column := "Date", target_field := "date", category_id := none },
   { csv_column := "Plat", target_field := "category", category_id := some "plat" }]

def c2Cfg : DateConfig :=
  { mode := "from_file", start_date := none, skip_weekends := true,
    date_format := none, auto_detect_tags := true }

/-! ## Confirm-loop invariants (shared by the duplicate-policy claims) -/

theorem findMenu_mono (db : MenuDB) (new : List PMenu) (nid rid d : Nat)
    (h : (findMenu db rid d).isSome) :
    (findMenu { menus := db.menus ++ new, next_id := nid } rid d).isSome := by
  unfold findMenu at h ⊢
  rw [List.find?_append]
  cases hf : db.menus.find? (fun m => m.restaurant_id = rid ∧ m.date = d) with
  | none => rw [hf] at h; cases h
  | some m => rfl

/-- The database row created for a fresh `BuiltMenu`. -/
def createdMenu (pub : Bool) (rid : Nat) (db : MenuDB) (md : BuiltMenu) : PMenu :=
  finishMenu { id := db.next_id, restaurant_id := rid, date := md.date,
               status := "draft", items := [] } md pub

/-- The database after creating a fresh menu (`add` + `flush`). -/
def createInto (pub : Bool) (rid : Nat) (db : MenuDB) (md : BuiltMenu) : MenuDB :=
  { menus := db.menus ++ [createdMenu pub rid db md], next_id := db.next_id + 1 }

theorem confirmStep_skip_some (pub : Bool) (rid : Nat) (db : MenuDB)
    (c : ConfirmCounts) (md : BuiltMenu) (m : PMenu)
    (hf : findMenu db rid md.date = some m) :
    confirmStep "skip" pub rid (db, c) md = (db, { c with skipped := c.skipped + 1 }) := by
  unfold confirmStep
  dsimp only
  rw [hf]
  rfl

theorem confirmStep_new (act : String) (pub : Bool) (rid : Nat) (db : MenuDB)
    (c : ConfirmCounts) (md : BuiltMenu)
    (hf : findMenu db rid md.date = none) :
    confirmStep act pub rid (db, c) md
      = (createInto pub rid db md, { c with imported := c.imported + 1 }) := by
  unfold confirmStep
  dsimp only
  rw [hf]
  rfl

theorem confirmStep_other_some (act : String)
    (hact : act ≠ "skip" ∧ act ≠ "replace" ∧ act ≠ "merge")
    (pub : Bool) (rid : Nat) (db : MenuDB) (c : ConfirmCounts) (md : BuiltMenu) (m : PMenu)
    (hf : findMenu db rid md.date = some m) :
    confirmStep act pub rid (db, c) md = (db, c) := by
  unfold confirmStep
  dsimp only
  rw [hf]
  simp only [if_neg hact.1, if_neg hact.2.1, if_neg hact.2.2]

/-- Invariant of the confirm fold under policy `skip`: the persisted menus
are only appended to, `replaced` is never touched, and each menu bumps
exactly one of `imported` / `skipped`. -/
theorem skip_fold (pub : Bool) (rid : Nat) :
    ∀ (ms : List BuiltMenu) (db : MenuDB) (c : ConfirmCounts),
      (∃ new, (ms.foldl (confirmStep "skip" pub rid) (db, c)).1.menus = db.menus ++ new) ∧
      (ms.foldl (confirmStep "skip" pub rid) (db, c)).2.replaced = c.replaced ∧
      (ms.foldl (confirmStep "skip" pub rid) (db, c)).2.imported
        + (ms.foldl (confirmStep "skip" pub rid) (db, c)).2.skipped
        = c.imported + c.skipped + ms.length := by
  intro ms
  induction ms with
  | nil => intro db c; exact ⟨⟨[], by simp⟩, rfl, rfl⟩
  | cons md rest ih =>
    intro db c
    rw [List.foldl_cons]
    cases hf : findMenu db rid md.date with
    | some m =>
      rw [confirmStep_skip_some pub rid db c md m hf]
      obtain ⟨⟨new, hnew⟩, hr, hcnt⟩ := ih db { c with skipped := c.skipped + 1 }
      refine ⟨⟨new, hnew⟩, hr, ?_⟩
      rw [hcnt]
      simp only [List.length_cons]
      omega
    | none =>
      rw [confirmStep_new "skip" pub rid db c md hf]
      obtain ⟨⟨new, hnew⟩, hr, hcnt⟩ :=
        ih (createInto pub rid db md) { c with imported := c.imported + 1 }
      refine ⟨⟨createdMenu pub rid db md :: new, by rw [hnew]; simp [createInto]⟩, hr, ?_⟩
      rw [hcnt]
      simp only [List.length_cons]
      omega

/-- Invariant of the confirm fold under an unrecognised duplicate policy:
colliding menus are passed over with no write and no counter, non-colliding
menus are created and counted as imported. -/
theorem other_fold (act : String)
    (hact : act ≠ "skip" ∧ act ≠ "replace" ∧ act ≠ "merge") (pub : Bool) (rid : Nat) :
    ∀ (ms : List BuiltMenu) (db : MenuDB) (c : ConfirmCounts),
      (∃ new, (ms.foldl (confirmStep act pub rid) (db, c)).1.menus = db.menus ++ new) ∧
      (ms.foldl (confirmStep act pub rid) (db, c)).2.replaced = c.replaced ∧
      (ms.foldl (confirmStep act pub rid) (db, c)).2.skipped = c.skipped ∧
      (ms.foldl (confirmStep act pub rid) (db, c)).2.imported ≤ c.imported + ms.length ∧
      ((∃ md ∈ ms, (findMenu db rid md.date).isSome) →
        (ms.foldl (confirmStep act pub rid) (db, c)).2.imported < c.imported + ms.length) := by
  intro ms
  induction ms with
  | nil =>
    intro db c
    refine ⟨⟨[], by simp⟩, rfl, rfl, by simp, ?_⟩
    rintro ⟨md, hmd, _⟩
    cases hmd
  | cons md rest ih =>
    intro db c
    rw [List.foldl_cons]
    cases hf : findMenu db rid md.date with
    | some m =>
      rw [confirmStep_other_some act hact pub rid db c md m hf]
      obtain ⟨hnew, hr, hs, hle, _⟩ := ih db c
      refine ⟨hnew, hr, hs, by simpa using Nat.le_succ_of_le hle, ?_⟩
      intro _
      simp only [List.length_cons]
      omega
    | none =>
      rw [confirmStep_new act pub rid db c md hf]
      obtain ⟨⟨new, hnew⟩, hr, hs, hle, hstrict⟩ :=
        ih (createInto pub rid db md) { c with imported := c.imported + 1 }
      refine ⟨⟨createdMenu pub rid db md :: new, by rw [hnew]; simp [createInto]⟩,
        hr, hs, ?_, ?_⟩
      · simp only [List.length_cons]
        dsimp only at hle
        omega
      · rintro ⟨w, hw, hcol⟩
        rcases List.mem_cons.mp hw with rfl | hwrest
        · rw [hf] at hcol; cases hcol
        · have hcol' : (findMenu (createInto pub rid db md) rid w.date).isSome :=
            findMenu_mono db _ _ rid _ hcol
          have hlt := hstrict ⟨w, hwrest, hcol'⟩
          simp only [List.length_cons]
          dsimp only at hlt
          omega

/-! ## C4 — duplicate policy `skip` -/

def c4old1 : PMenu :=
  { id := 10, restaurant_id := 1, date := 500, status := "published",
    items := [{ menu_id := 10, category := "plat", name := "Old1", order := 0,
                is_vegetarian := false, is_halal := false, is_pork_free := false,
                tags := [], certifications := [] }] }

def c4old2 : PMenu :=
  { id := 11, restaurant_id := 1, date := 502, status := "draft",
    items := [{ menu_id := 11, category := "dessert", name := "Old2", order := 0,
                is_vegetarian := false, is_halal := false, is_pork_free := false,
                tags := [], certifications := [] }] }

def c4db : MenuDB := { menus := [c4old1, c4old2], next_id := 12 }

def c4menus : List BuiltMenu :=
  [{ date := 500, items := [buildOneItem true "plat" 0 "N1"] },
   { date := 501, items := [buildOneItem true "plat" 0 "N2"] },
   { date := 502, items := [buildOneItem true "plat" 0 "N3"] },
   { date := 503, items := [buildOneItem true "plat" 0 "N4"] },
   { date := 504, items := [buildOneItem true "plat" 0 "N5"] }]

/-- C4 (confirmed): under duplicate policy `skip`, for each `BuiltMenu` in
order: with no persisted menu at `(restaurant, date)` a fresh menu is created
(status `draft` when auto-publish is off) holding exactly the built items,
and `imported` is bumped; with a persisted menu nothing is written and
`skipped` is bumped.  Across a whole call the persisted menus are only
appended to (pre-existing menus, items included, are unchanged),
`replaced = 0` and `imported + skipped` equals the number of `BuiltMenu`s.
On the 5-menu example with 2 colliding dates the counts are `(3, 0, 2)` and
both pre-existing menus survive unchanged. -/
theorem confirm_skip_spec :
    (∀ (pub : Bool) (rid : Nat) (db : MenuDB) (c : ConfirmCounts) (md : BuiltMenu),
       findMenu db rid md.date = none →
       confirmStep "skip" pub rid (db, c) md
         = (createInto pub rid db md, { c with imported := c.imported + 1 })) ∧
    (∀ (rid : Nat) (db : MenuDB) (md : BuiltMenu),
       (createdMenu false rid db md).status = "draft" ∧
       (createdMenu false rid db md).items = md.items.map (itemToP db.next_id)) ∧
    (∀ (pub : Bool) (rid : Nat) (db : MenuDB) (c : ConfirmCounts) (md : BuiltMenu)
       (m : PMenu), findMenu db rid md.date = some m →
       confirmStep "skip" pub rid (db, c) md = (db, { c with skipped := c.skipped + 1 })) ∧
    (∀ (pub : Bool) (rid : Nat) (db : MenuDB) (ms : List BuiltMenu),
       ∃ new, (processMenus "skip" pub rid db ms).1.menus = db.menus ++ new) ∧
    (∀ (pub : Bool) (rid : Nat) (db : MenuDB) (ms : List BuiltMenu),
       (processMenus "skip" pub rid db ms).2.replaced = 0 ∧
       (processMenus "skip" pub rid db ms).2.imported
         + (processMenus "skip" pub rid db ms).2.skipped = ms.length) ∧
    ((processMenus "skip" false 1 c4db c4menus).2
        = { imported := 3, replaced := 0, skipped := 2 } ∧
     c4old1 ∈ (processMenus "skip" false 1 c4db c4menus).1.menus ∧
     c4old2 ∈ (processMenus "skip" false 1 c4db c4menus).1.menus) := by
  refine ⟨confirmStep_new "skip", ?_, confirmStep_skip_some, ?_, ?_, by decide, by decide, by decide⟩
  · intro rid db md
    exact ⟨rfl, by simp [createdMenu, finishMenu]⟩
  · intro pub rid db ms
    exact (skip_fold pub rid ms db { imported := 0, replaced := 0, skipped := 0 }).1
  · intro pub rid db ms
    obtain ⟨_, hr, hcnt⟩ := skip_fold pub rid ms db { imported := 0, replaced := 0, skipped := 0 }
    exact ⟨hr, by simpa using hcnt⟩

/-- Witness for the skip-policy theorem, instantiating the collision step at
the first example menu. -/
theorem confirm_skip_spec_witness :
    confirmStep "skip" false 1 (c4db, { imported := 0, replaced := 0, skipped := 0 })
        { date := 500, items := [buildOneItem true "plat" 0 "N1"] }
      = (c4db, { imported := 0, replaced := 0, skipped := 1 }) := by
  exact confirm_skip_spec.2.2.1 false 1 c4db _ _ c4old1 (by decide)

/-! ## C10 — unrecognised duplicate policy -/

/-- C10 (confirmed): with a `duplicate_action` other than `skip` / `replace`
/ `merge`, every colliding `BuiltMenu` is passed over with no write and no
counter at all, while non-colliding ones are still created and counted
as imported; hence `replaced = skipped = 0` and, as soon as one collision
exists, `imported + replaced + skipped` is strictly below the number of
`BuiltMenu`s. -/
theorem confirm_unknown_action_spec (act : String)
    (hact : act ≠ "skip" ∧ act ≠ "replace" ∧ act ≠ "merge") :
    (∀ (pub : Bool) (rid : Nat) (db : MenuDB) (c : ConfirmCounts) (md : BuiltMenu)
       (m : PMenu), findMenu db rid md.date = some m →
       confirmStep act pub rid (db, c) md = (db, c)) ∧
    (∀ (pub : Bool) (rid : Nat) (db : MenuDB) (c : ConfirmCounts) (md : BuiltMenu),
       findMenu db rid md.date = none →
       confirmStep act pub rid (db, c) md
         = (createInto pub rid db md, { c with imported := c.imported + 1 })) ∧
    (∀ (pub : Bool) (rid : Nat) (db : MenuDB) (ms : List BuiltMenu),
       (processMenus act pub rid db ms).2.replaced = 0 ∧
       (processMenus act pub rid db ms).2.skipped = 0) ∧
    (∀ (pub : Bool) (rid : Nat) (db : MenuDB) (ms : List BuiltMenu),
       (∃ md ∈ ms, (findMenu db rid md.date).isSome) →
       (processMenus act pub rid db ms).2.imported
         + (processMenus act pub rid db ms).2.replaced
         + (processMenus act pub rid db ms).2.skipped < ms.length) := by
  refine ⟨confirmStep_other_some act hact, confirmStep_new act, ?_, ?_⟩
  · intro pub rid db ms
    obtain ⟨_, hr, hs, _, _⟩ :=
      other_fold act hact pub rid ms db { imported := 0, replaced := 0, skipped := 0 }
    exact ⟨hr, hs⟩
  · intro pub rid db ms hcol
    obtain ⟨_, hr, hs, _, hstrict⟩ :=
      other_fold act hact pub rid ms db { imported := 0, replaced := 0, skipped := 0 }
    have hlt := hstrict hcol
    unfold processMenus
    dsimp only at hlt hr hs ⊢
    omega

/-- Witness for the unknown-policy theorem: policy `"overwrite"` on the
5-menu example with 2 collisions imports only the 3 fresh dates and counts
nothing else, so the counter total 3 undershoots the 5 `BuiltMenu`s. -/
theorem confirm_unknown_action_spec_witness :
    (processMenus "overwrite" false 1 c4db c4menus).2.imported
      + (processMenus "overwrite" false 1 c4db c4menus).2.replaced
      + (processMenus "overwrite" false 1 c4db c4menus).2.skipped < c4menus.length ∧
    (processMenus "overwrite" false 1 c4db c4menus).2
      = { imported := 3, replaced := 0, skipped := 0 } := by
  refine ⟨?_, by decide⟩
  exact (confirm_unknown_action_spec "overwrite" ⟨by decide, by decide, by decide⟩).2.2.2
    false 1 c4db c4menus
    ⟨{ date := 500, items := [buildOneItem true "plat" 0 "N1"] }, by decide, by decide⟩

/-- Witness for the from-file theorem: a three-row table whose middle row has
date cell `"not-a-date"` yields exactly the two menus of rows 1 and 3. -/
theorem from_file_mode_spec_witness :
    build_menus_from_rows c2Rows c2Mapping c2Cfg 1 0
      = .ok [{ date := toOrdinal 2024 9 2, items := [buildOneItem true "plat" 0 "A"] },
             { date := toOrdinal 2024 9 3, items := [buildOneItem true "plat" 0 "C"] }] ∧
    parse_date "not-a-date" none = none := by
  refine ⟨?_, by decide⟩
  rw [(from_file_mode_spec c2Rows c2Mapping c2Cfg 1 0 "Date" rfl (by decide) (by decide)).1]
  decide
example : weekday (toOrdinal 2024 9 2) = 0 := by decide
example : weekday (toOrdinal 2024 9 7) = 5 := by decide
example : parse_date "not-a-date" none = none := by decide
example : parse_date " 2024-02-29 " none = some (toOrdinal 2024 2 29) := by decide
example : parse_date "2023-02-29" none = none := by decide
example : parse_date "07/09/2024" none = some (toOrdinal 2024 9 7) := by decide

/-! ## C5 — confirm atomicity, audit log, session lifetime -/

/-- C5 (confirmed): whatever the duplicate policy, a confirm call on a valid
session with a well-formed build either (a) fails because of an exception
raised while processing some menu, in which case *every* write of the call —
menus, items, audit log — is rolled back and the committed state, the import
session included, is exactly as before, so the caller can retry; or (b)
succeeds, committing the processed menus together with exactly one new
audit-log entry carrying the outcome counts, and only then deleting
the import session. -/
theorem confirm_atomicity (st : ServerState) (sid : String) (uid now : Nat)
    (cm : List ColMapping) (cfg : DateConfig) (act : String) (pub : Bool)
    (rid today : Nat) (sess : SessionRec) (menus : List BuiltMenu)
    (hs : get_valid st.sessions sid uid now = some sess)
    (hb : build_menus_from_rows sess.rows cm cfg rid today = .ok menus) :
    (∀ k, k < menus.length →
       confirm_import st sid uid now cm cfg act pub rid today (some k) = (st, .error)) ∧
    (confirm_import st sid uid now cm cfg act pub rid today none
       = ({ db := (processMenus act pub rid st.db menus).1,
            audit := st.audit ++
              [{ action := "csv_import", user_id := uid, filename := sess.filename,
                 imported_count := (processMenus act pub rid st.db menus).2.imported,
                 replaced_count := (processMenus act pub rid st.db menus).2.replaced,
                 skipped_count := (processMenus act pub rid st.db menus).2.skipped,
                 auto_publish := pub }],
            sessions := st.sessions.filter (fun s => s.id ≠ sess.id) },
          .ok (processMenus act pub rid st.db menus).2.imported
              (processMenus act pub rid st.db menus).2.replaced
              (processMenus act pub rid st.db menus).2.skipped)) := by
  constructor
  · intro k hk
    unfold confirm_import
    rw [hs]
    dsimp only
    rw [hb]
    dsimp only
    unfold processMenusExc
    dsimp only
    rw [if_pos hk]
  · unfold confirm_import
    rw [hs]
    dsimp only
    rw [hb]
    rfl

def c5sess : SessionRec :=
  { id := "s1", user_id := 7, filename := "menus.csv", columns := ["Plat"],
    rows := [[("Plat", "Soupe")]], expires_at := 100 }

def c5st : ServerState :=
  { db := { menus := [], next_id := 1 }, audit := [], sessions := [c5sess] }

def c5cfg : DateConfig :=
  { mode := "start_date", start_date := some "2024-09-02", skip_weekends := true,
    date_format := none, auto_detect_tags := true }

def c5mapping : List ColMapping :=
  [{ csv_column := "Plat", target_field := "category", category_id := some "plat" }]

/-- Witness for the atomicity theorem: on a one-row session, an exception at
menu 0 leaves the whole committed state (session included) untouched, while
the success path deletes the session and appends exactly one audit entry. -/
theorem confirm_atomicity_witness :
    (confirm_import c5st "s1" 7 50 c5mapping c5cfg "skip" false 1 0 (some 0)
       = (c5st, .error)) ∧
    (confirm_import c5st "s1" 7 50 c5mapping c5cfg "skip" false 1 0 none).1.sessions = [] ∧
    (confirm_import c5st "s1" 7 50 c5mapping c5cfg "skip" false 1 0 none).1.audit
      = [{ action := "csv_import", user_id := 7, filename := "menus.csv",
           imported_count := 1, replaced_count := 0, skipped_count := 0,
           auto_publish := false }] := by
  have h := confirm_atomicity c5st "s1" 7 50 c5mapping c5cfg "skip" false 1 0 c5sess
    [{ date := toOrdinal 2024 9 2, items := [buildOneItem true "plat" 0 "Soupe"] }]
    (by decide) (by decide)
  refine ⟨h.1 0 (by decide), ?_, ?_⟩
  · rw [h.2]
    decide
  · rw [h.2]
    decide

/-! ## Remaining witnesses -/

/-- Witness for the delimiter theorem: on the spec's own header line the
comma count is bounded by the winner's count. -/
theorem detect_delimiter_spec_witness :
    countChar (firstLine "a;b,c;d;e") ','
      ≤ countChar (firstLine "a;b,c;d;e") (detect_delimiter "a;b,c;d;e") :=
  detect_delimiter_spec.2.1 "a;b,c;d;e" ',' (by decide)

/-- Witness for the mapping-advisor theorem: a single matching column is
proposed as the date column. -/
theorem suggest_mapping_date_spec_witness :
    (suggest_column_mapping ["Lunch Date"]).date = some "Lunch Date" := by
  rw [suggest_mapping_date_spec.2.1]
  decide

/-- Witness for the session-validity theorem: before expiry the owner gets
the session back. -/
theorem get_valid_spec_witness :
    get_valid [boundarySession] "t" 1 50 = some boundarySession :=
  (get_valid_spec [boundarySession] "t" 1 50 boundarySession).1.mpr
    ⟨by decide, by decide⟩

/-- Witness for the cell-splitting theorem: the first example item's order
index is a position of the example cell's segment list. -/
theorem cell_splitting_spec_witness :
    (buildOneItem true "plat" 0 "Steak").order
      < (splitRuns "Steak, Frites\nSalade").length :=
  cell_splitting_spec.2.2.1 true "plat" "Steak, Frites\nSalade"
    (buildOneItem true "plat" 0 "Steak") (by decide)

/-- Witness for the forced-vegetarian theorem: with auto-detection disabled
and no vegetarian keyword in the text, the item built under `"vg"` still
carries the tag. -/
theorem vg_items_tagged_witness :
    "vegetarian" ∈ (buildOneItem false "vg" 0 "Tofu").tags := by
  have h := vg_items_tagged [[("VG", "Tofu")]]
    [{ csv_column := "VG", target_field := "category", category_id := some "vg" }]
    { mode := "start_date", start_date := some "2024-09-02", skip_weekends := true,
      date_format := none, auto_detect_tags := false }
    1 0 [{ date := toOrdinal 2024 9 2, items := [buildOneItem false "vg" 0 "Tofu"] }]
    (by decide)
  exact h { date := toOrdinal 2024 9 2, items := [buildOneItem false "vg" 0 "Tofu"] }
    (by decide) (buildOneItem false "vg" 0 "Tofu") (by decide) (by decide)

end Mariam
